import Mathlib

/-!
Shallow embedding of the sqlite-lite read-only query engine (src/db.rs together
with the record/cell/statement declarations in src/record.rs, src/cell.rs and
src/sql.rs), and proofs about the claims of the specification.

Modelling conventions, used throughout:
* Rust byte slices (`&[u8]`) are `List Nat` with every element below 256 at the
  concrete inputs; Rust `String` values are their UTF-8 byte lists, so Rust's
  byte-wise `==`/`<` on `String` is list equality / lexicographic order here.
* Machine integers are `Nat`/`Int`; `u64`/`usize` wrap-around and `as` casts
  are explicit `% 2 ^ 64`, two's-complement reads are `toSigned`.
* Fallible Rust code returns `Except DbError _`.  `anyhow` error results and
  panics (`unwrap`, `unimplemented!`, index out of bounds, slice `split_at`
  beyond the end) are kept apart by the two `DbError` constructors, because the
  program's error channel (`Result::Err`) and aborts-by-panic are observably
  different behaviours.
* The recursive traversals of `Database` walk pages by page number exactly as
  `db.rs` does; a `fuel` argument bounds the recursion depth (the Rust
  recursion is unbounded and would not terminate on a cyclic page graph).
  For any acyclic database any `fuel` larger than the page count gives the
  behaviour of the source.
* `Database.pages` holds the pages already decoded (the byte-to-`Page`
  decoding of `read_page` is modelled separately at the byte level:
  `parseVarint`, `parseColTypes`, `materializeValues`, `readSchema`).
  `Schema.sql` holds the *result* of `parse_sql` applied to the stored DDL
  text: `parse_sql` is pure and deterministic, and the specification (section
  1) places the SQL parser outside the core being specified.
* `Record.float` keeps the eight raw big-endian payload bytes as a `Nat`
  instead of an IEEE value; no claim depends on floating-point arithmetic.
* `executeIndex` additionally returns the list of page numbers it reads, in
  order, and `executeSelectWithIndex` additionally returns how many leaf cells
  passed its rowid filter.  Both instrumentations record I/O the Rust code
  performs (`read_page` calls, the `cells` kept by the filter); the first
  component of each result is exactly the data the source computes.
-/

/-- Byte strings: Rust `&[u8]` / the UTF-8 bytes of a Rust `String`. -/
abbrev Bytes := List Nat

/-- `DB_HEADER_SIZE` from src/main.rs. -/
def DB_HEADER_SIZE : Nat := 100

/-- Two's-complement read of `n` (a `w`-bit big-endian accumulated value). -/
def toSigned (w n : Nat) : Int :=
  if n < 2 ^ (w - 1) then (n : Int) else (n : Int) - 2 ^ w

/-- Rust `x as usize` on a signed value (sign-extend, then reinterpret as a
64-bit unsigned number): the representative of `k` modulo `2 ^ 64`. -/
def intToUsize (k : Int) : Nat := (k % (2 ^ 64 : Int)).toNat

/-- Rust `id as i64` on a `u64`: reinterpret the 64-bit pattern as signed. -/
def u64ToI64 (n : Nat) : Int := toSigned 64 n

/-- Lexicographic byte order: Rust `String` `<` compares UTF-8 bytes. -/
def bytesLt : Bytes → Bytes → Bool
  | [], [] => false
  | [], _ :: _ => true
  | _ :: _, [] => false
  | x :: xs, y :: ys => if x < y then true else if y < x then false else bytesLt xs ys

/-- ASCII lower-casing of one byte (Rust `to_lowercase` restricted to the
ASCII range, which is all the executor ever compares case-insensitively). -/
def asciiLowerByte (b : Nat) : Nat := if 65 ≤ b ∧ b ≤ 90 then b + 32 else b

/-- Rust `s.to_lowercase()` on ASCII text. -/
def lowerBytes (s : Bytes) : Bytes := s.map asciiLowerByte

/-- The byte string `count(*)`. -/
def countStar : Bytes := [99, 111, 117, 110, 116, 40, 42, 41]

/-- UTF-8 continuation byte test (`0x80..=0xBF`). -/
def isCont (b : Nat) : Bool := decide (128 ≤ b ∧ b ≤ 191)

/-- UTF-8 validity of a byte list, the check `std::str::from_utf8` performs. -/
def utf8Valid : Bytes → Bool
  | [] => true
  | b :: rest =>
    if b < 128 then utf8Valid rest
    else if 194 ≤ b ∧ b ≤ 223 then
      match rest with
      | c1 :: r => isCont c1 && utf8Valid r
      | [] => false
    else if b = 224 then
      match rest with
      | c1 :: c2 :: r => decide (160 ≤ c1 ∧ c1 ≤ 191) && isCont c2 && utf8Valid r
      | _ => false
    else if 225 ≤ b ∧ b ≤ 236 then
      match rest with
      | c1 :: c2 :: r => isCont c1 && isCont c2 && utf8Valid r
      | _ => false
    else if b = 237 then
      match rest with
      | c1 :: c2 :: r => decide (128 ≤ c1 ∧ c1 ≤ 159) && isCont c2 && utf8Valid r
      | _ => false
    else if 238 ≤ b ∧ b ≤ 239 then
      match rest with
      | c1 :: c2 :: r => isCont c1 && isCont c2 && utf8Valid r
      | _ => false
    else if b = 240 then
      match rest with
      | c1 :: c2 :: c3 :: r => decide (144 ≤ c1 ∧ c1 ≤ 191) && isCont c2 && isCont c3 && utf8Valid r
      | _ => false
    else if 241 ≤ b ∧ b ≤ 243 then
      match rest with
      | c1 :: c2 :: c3 :: r => isCont c1 && isCont c2 && isCont c3 && utf8Valid r
      | _ => false
    else if b = 244 then
      match rest with
      | c1 :: c2 :: c3 :: r => decide (128 ≤ c1 ∧ c1 ≤ 143) && isCont c2 && isCont c3 && utf8Valid r
      | _ => false
    else false

/-- The `anyhow!`-style error results raised by src/db.rs (one constructor per
distinct message). -/
inductive ErrKind where
  | ioError
  | invalidPageKind
  | invalidSchemaPageKind
  | invalidPageType
  | invalidRecordType
  | tableNotFound
  | nonexistentColumn
  | invalidKind
  | invalidSchema
  | varintTooLong
  | varintIncomplete
  | invalidUtf8
  | truncated
  deriving DecidableEq, Repr

/-- The panics the source can hit (aborts, not error results). -/
inductive PanicKind where
  | unimplemented
  | unreachableHit
  | unwrapNone
  | indexOutOfBounds
  | stackOverflow
  deriving DecidableEq, Repr

/-- Failure of an operation: an `anyhow` error result or a panic. -/
inductive DbError where
  | err (e : ErrKind)
  | panic (p : PanicKind)
  deriving DecidableEq, Repr

/-- `parse_varint`'s loop body (db.rs line 888):
`result = (result << 7) | (byte & 0x7F)` on a wrapping `u64`. -/
def varintStep (acc b : Nat) : Nat := ((acc <<< 7) % 2 ^ 64) ||| (b &&& 127)

/-- Loop of `parse_varint` (db.rs lines 883-893); `idx` is the enumeration
index, `acc` the accumulator. -/
def parseVarintGo (acc idx : Nat) : Bytes → Except DbError (Nat × Bytes × Nat)
  | [] => .error (.err .varintIncomplete)
  | b :: rest =>
    if 10 ≤ idx then .error (.err .varintTooLong)
    else
      let acc := varintStep acc b
      if b &&& 128 = 0 then .ok (acc, rest, idx + 1)
      else parseVarintGo acc (idx + 1) rest

/-- `parse_varint` (db.rs lines 880-896): value, remaining bytes, consumed
count. -/
def parseVarint (data : Bytes) : Except DbError (Nat × Bytes × Nat) :=
  parseVarintGo 0 0 data

/-- The accumulated value of a consumed varint prefix. -/
def varintValue (consumed : Bytes) : Nat := List.foldl varintStep 0 consumed

/-- `ColumnType` from src/record.rs. -/
inductive ColumnType where
  | null
  | int8
  | int16
  | int24
  | int32
  | int48
  | int64
  | float
  | zero
  | one
  | reserved1
  | reserved2
  | blob (len : Nat)
  | text (len : Nat)
  deriving DecidableEq, Repr

/-- The serial-type decoding match repeated at db.rs lines 413-428, 534-549,
636-651 and 804-819. -/
def colTypeOf (n : Nat) : ColumnType :=
  match n with
  | 0 => .null
  | 1 => .int8
  | 2 => .int16
  | 3 => .int24
  | 4 => .int32
  | 5 => .int48
  | 6 => .int64
  | 7 => .float
  | 8 => .zero
  | 9 => .one
  | 10 => .reserved1
  | 11 => .reserved2
  | n => if n % 2 = 0 then .blob ((n - 12) / 2) else .text ((n - 13) / 2)

/-- `Record` from src/record.rs.  Integer payloads carry the decoded
two's-complement value; `float` carries the raw eight payload bytes as a
big-endian `Nat` (no claim depends on IEEE semantics); `text` carries UTF-8
bytes. -/
inductive Record where
  | null
  | int8 (v : Int)
  | int16 (v : Int)
  | int24 (v : Int)
  | int32 (v : Int)
  | int48 (v : Int)
  | int64 (v : Int)
  | float (bits : Nat)
  | zero
  | one
  | reserved1
  | reserved2
  | blob (b : Bytes)
  | text (t : Bytes)
  deriving DecidableEq, Repr

/-- The record-header while-loop shared by every cell decoder in db.rs
(e.g. lines 409-432): read serial types until `target` header bytes are
consumed.  `parse_varint` consumes at least one byte per iteration, so the
loop runs at most `target` times; `fuel` bounds it and `fuel = target`
reproduces the source on every input the source terminates on. -/
def parseColTypes (fuel : Nat) (cell : Bytes) (cur target : Nat) :
    Except DbError (List ColumnType × Bytes) :=
  if cur < target then
    match fuel with
    | 0 => .error (.panic .stackOverflow)
    | f + 1 => do
      let (colType, rest, vsize) ← parseVarint cell
      let (more, rest2) ← parseColTypes f rest (cur + vsize) target
      .ok (colTypeOf colType :: more, rest2)
  else .ok ([], cell)

/-- Rust `slice.split_at(n)`: panics when `n` exceeds the slice length. -/
def splitAtE (n : Nat) (b : Bytes) : Except DbError (Bytes × Bytes) :=
  if n ≤ b.length then .ok (b.take n, b.drop n)
  else .error (.panic .indexOutOfBounds)

/-- `std::str::from_utf8`: the bytes themselves on success, `InvalidUtf8`
otherwise. -/
def utf8Check (b : Bytes) : Except DbError Bytes :=
  if utf8Valid b then .ok b else .error (.err .invalidUtf8)

/-- Big-endian accumulation of a byte list. -/
def beNat (bs : Bytes) : Nat := List.foldl (fun acc b => acc * 256 + b) 0 bs

/-- nom `be_i8`: one byte as a signed integer, or an error result when the
slice is empty. -/
def beI8 (cell : Bytes) : Except DbError (Int × Bytes) :=
  match cell with
  | b :: r => .ok (toSigned 8 b, r)
  | _ => .error (.err .truncated)

/-- nom `be_i16`: two big-endian bytes as a signed integer. -/
def beI16 (cell : Bytes) : Except DbError (Int × Bytes) :=
  match cell with
  | b0 :: b1 :: r => .ok (toSigned 16 (beNat [b0, b1]), r)
  | _ => .error (.err .truncated)

/-- nom `be_i24`: three big-endian bytes, sign-extended. -/
def beI24 (cell : Bytes) : Except DbError (Int × Bytes) :=
  match cell with
  | b0 :: b1 :: b2 :: r => .ok (toSigned 24 (beNat [b0, b1, b2]), r)
  | _ => .error (.err .truncated)

/-- nom `be_i32`: four big-endian bytes as a signed integer. -/
def beI32 (cell : Bytes) : Except DbError (Int × Bytes) :=
  match cell with
  | b0 :: b1 :: b2 :: b3 :: r => .ok (toSigned 32 (beNat [b0, b1, b2, b3]), r)
  | _ => .error (.err .truncated)

/-- nom `be_i64`: eight big-endian bytes as a signed integer. -/
def beI64 (cell : Bytes) : Except DbError (Int × Bytes) :=
  match cell with
  | b0 :: b1 :: b2 :: b3 :: b4 :: b5 :: b6 :: b7 :: r =>
    .ok (toSigned 64 (beNat [b0, b1, b2, b3, b4, b5, b6, b7]), r)
  | _ => .error (.err .truncated)

/-- nom `be_f64`: eight big-endian bytes; kept as the raw bit pattern. -/
def beF64 (cell : Bytes) : Except DbError (Nat × Bytes) :=
  match cell with
  | b0 :: b1 :: b2 :: b3 :: b4 :: b5 :: b6 :: b7 :: r =>
    .ok (beNat [b0, b1, b2, b3, b4, b5, b6, b7], r)
  | _ => .error (.err .truncated)

/-- The serial-type-5 decoding at db.rs lines 463-469 (identically at
page.rs lines 314-320): `i64::from_be_bytes([0, 0, b0, b1, b2, b3, b4, b5])`
after indexing `cell[0]`..`cell[5]` (which panics when fewer than six bytes
remain). -/
def readInt48 (cell : Bytes) : Except DbError (Int × Bytes) :=
  match cell with
  | b0 :: b1 :: b2 :: b3 :: b4 :: b5 :: rest =>
    .ok (toSigned 64 (beNat [0, 0, b0, b1, b2, b3, b4, b5]), rest)
  | _ => .error (.panic .indexOutOfBounds)

/-- The value-materialization loop of the leaf-table decoder (db.rs lines
434-500): walk the serial types, consuming payload bytes; the column at
index 0 with serial type NULL is replaced by `Int64(row_id as i64)`. -/
def materializeValuesGo (id : Nat) : Nat → Bytes → List ColumnType → Except DbError (List Record)
  | _, _, [] => .ok []
  | idx, cell, ct :: rest =>
    match ct with
    | .null => do
      let v := if idx = 0 then Record.int64 (u64ToI64 id) else Record.null
      let more ← materializeValuesGo id (idx + 1) cell rest
      .ok (v :: more)
    | .int8 => do
      let (v, r) ← beI8 cell
      let more ← materializeValuesGo id (idx + 1) r rest
      .ok (Record.int8 v :: more)
    | .int16 => do
      let (v, r) ← beI16 cell
      let more ← materializeValuesGo id (idx + 1) r rest
      .ok (Record.int16 v :: more)
    | .int24 => do
      let (v, r) ← beI24 cell
      let more ← materializeValuesGo id (idx + 1) r rest
      .ok (Record.int24 v :: more)
    | .int32 => do
      let (v, r) ← beI32 cell
      let more ← materializeValuesGo id (idx + 1) r rest
      .ok (Record.int32 v :: more)
    | .int48 => do
      let (v, r) ← readInt48 cell
      let more ← materializeValuesGo id (idx + 1) r rest
      .ok (Record.int48 v :: more)
    | .int64 => do
      let (v, r) ← beI64 cell
      let more ← materializeValuesGo id (idx + 1) r rest
      .ok (Record.int64 v :: more)
    | .float => do
      let (v, r) ← beF64 cell
      let more ← materializeValuesGo id (idx + 1) r rest
      .ok (Record.float v :: more)
    | .zero => do
      let more ← materializeValuesGo id (idx + 1) cell rest
      .ok (Record.zero :: more)
    | .one => do
      let more ← materializeValuesGo id (idx + 1) cell rest
      .ok (Record.one :: more)
    | .reserved1 => do
      let more ← materializeValuesGo id (idx + 1) cell rest
      .ok (Record.reserved1 :: more)
    | .reserved2 => do
      let more ← materializeValuesGo id (idx + 1) cell rest
      .ok (Record.reserved2 :: more)
    | .blob len => do
      let (bl, r) ← splitAtE len cell
      let more ← materializeValuesGo id (idx + 1) r rest
      .ok (Record.blob bl :: more)
    | .text len => do
      let (tx, r) ← splitAtE len cell
      let t ← utf8Check tx
      let more ← materializeValuesGo id (idx + 1) r rest
      .ok (Record.text t :: more)

/-- Materialize a leaf-table record's values from its serial types and payload
(db.rs lines 434-500); `id` is the cell's rowid, substituted for a NULL first
column. -/
def materializeValues (id : Nat) (colTypes : List ColumnType) (payload : Bytes) :
    Except DbError (List Record) :=
  materializeValuesGo id 0 payload colTypes

/-- `LeafTableCell` from src/cell.rs. -/
structure LeafTableCell where
  row_id : Nat
  values : List Record
  deriving DecidableEq, Repr

/-- `InteriorTableCell` from src/cell.rs (`left_child` is a page number). -/
structure InteriorTableCell where
  left_child : Nat
  row_id : Nat
  deriving DecidableEq, Repr

/-- `LeafIndexCell` from src/cell.rs. -/
structure LeafIndexCell where
  keys : List Record
  deriving DecidableEq, Repr

/-- `InteriorIndexCell` from src/cell.rs. -/
structure InteriorIndexCell where
  left_child : Nat
  keys : List Record
  deriving DecidableEq, Repr

/-- The decoded page type `crate::Page` consumed by src/db.rs (its variants
and cell types are exactly those `read_page` constructs; the declaration
itself lives in a module not present under src/, but every field is pinned by
its construction at db.rs lines 400-731 and its uses). -/
inductive Page where
  | interiorIndex (rmptr : Nat) (cells : List InteriorIndexCell)
  | interiorTable (rmptr : Nat) (cells : List InteriorTableCell)
  | leafIndex (cells : List LeafIndexCell)
  | leafTable (cells : List LeafTableCell)
  deriving DecidableEq, Repr

/-- `page::schema::Kind` as used by db.rs (Table/Index/View/Trigger). -/
inductive SchemaKind where
  | table
  | index
  | view
  | trigger
  deriving DecidableEq, Repr

/-- `Condition` from src/sql.rs. -/
inductive Condition where
  | equals (column : Bytes) (value : Bytes)
  deriving DecidableEq, Repr

/-- `ColumnDef` from src/sql.rs. -/
structure ColumnDef where
  name : Bytes
  dataType : Bytes
  deriving DecidableEq, Repr

/-- `Statement` from src/sql.rs. -/
inductive Statement where
  | select (table : Bytes) (columns : List Bytes) (condition : Option Condition)
  | createTable (table : Bytes) (columns : List ColumnDef)
  | createIndex (indexName : Bytes) (table : Bytes) (columns : List Bytes) (ifNotExists : Bool)
  deriving DecidableEq, Repr

/-- A catalog row (`page::schema::Schema` as constructed by
`DbLoader::read_schema` and consumed by the executor).  The `sql` field holds
the result of `parse_sql` on the stored DDL text (see the file comment). -/
structure Schema where
  kind : SchemaKind
  name : Bytes
  tbl_name : Bytes
  rootpage : Nat
  sql : Statement
  deriving DecidableEq, Repr

/-- A loaded `Database`: the decoded pages of the file, 1-based, and the
cached catalog. -/
structure Database where
  pages : List Page
  schema : List Schema
  deriving Repr

/-- `Database::read_page` (db.rs lines 361-733) with the byte-level decoding
abstracted to the pre-decoded `pages`: a failed read of page `n` is the
pager's I/O error. -/
def readPage (db : Database) (pageNum : Nat) : Except DbError Page :=
  match db.pages.get? (pageNum - 1) with
  | some p => .ok p
  | none => .error (.err .ioError)

/-- `Database::get_schema` (db.rs lines 323-328). -/
def getSchema (db : Database) (tableName : Bytes) : Except DbError Schema :=
  match db.schema.find? (fun s => decide (s.name = tableName ∧ s.kind = SchemaKind.table)) with
  | some s => .ok s
  | none => .error (.err .tableNotFound)

/-- `Database::get_table_rootpage` (db.rs lines 352-359). -/
def getTableRootpage (db : Database) (tableName : Bytes) : Except DbError Nat :=
  match db.schema.find? (fun s => decide (s.name = tableName ∧ s.kind = SchemaKind.table)) with
  | some s => .ok s.rootpage
  | none => .error (.err .tableNotFound)

/-- Inner loop of `Database::get_index_rootpage` (db.rs lines 337-347): first
index schema whose parsed DDL is a `CreateIndex` listing the column. -/
def findIndexIn : List Schema → Bytes → Option Nat
  | [], _ => none
  | s :: rest, col =>
    match s.sql with
    | .createIndex _ _ columns _ =>
      if col ∈ columns then some s.rootpage else findIndexIn rest col
    | _ => findIndexIn rest col

/-- `Database::get_index_rootpage` (db.rs lines 330-350). -/
def getIndexRootpage (db : Database) (tblName columnName : Bytes) : Option Nat :=
  findIndexIn
    (db.schema.filter (fun s => decide (s.kind = SchemaKind.index ∧ s.tbl_name = tblName)))
    columnName

/-- Rust `slice.chunks(2)`. -/
def chunks2 : List Record → List (List Record)
  | [] => []
  | [a] => [[a]]
  | a :: b :: rest => [a, b] :: chunks2 rest

/-- Rust `slice.windows(2)` as adjacent pairs. -/
def windows2 : List InteriorTableCell → List (InteriorTableCell × InteriorTableCell)
  | a :: b :: rest => (a, b) :: windows2 (b :: rest)
  | _ => []

/-- Chunk loop of `execute_index` on an interior index cell (db.rs lines
123-135): `recurse` performs `self.execute_index(cell.left_child, ..)` and
returns (pushed rowids, pages read). -/
def indexInteriorChunks (value : Bytes)
    (recurse : Nat → Except DbError (List Nat × List Nat)) (leftChild : Nat) :
    List (List Record) → Except DbError (List Nat × List Nat)
  | [] => .ok ([], [])
  | k :: rest => do
    let r1 ←
      match k.head? with
      | some (Record.text val) =>
        if bytesLt value val then recurse leftChild
        else if value = val then
          match k.get? 1 with
          | some (Record.int24 rowid) => do
            let sub ← recurse leftChild
            .ok (intToUsize rowid :: sub.1, sub.2)
          | some _ => .error (.err .invalidRecordType)
          | none => .error (.panic .indexOutOfBounds)
        else .ok (([] : List Nat), ([] : List Nat))
      | some _ => .ok (([] : List Nat), ([] : List Nat))
      | none => .error (.panic .indexOutOfBounds)
    let r2 ← indexInteriorChunks value recurse leftChild rest
    .ok (r1.1 ++ r2.1, r1.2 ++ r2.2)

/-- Cell loop of `execute_index` on an interior index page (db.rs lines
122-136). -/
def indexInteriorCells (value : Bytes)
    (recurse : Nat → Except DbError (List Nat × List Nat)) :
    List InteriorIndexCell → Except DbError (List Nat × List Nat)
  | [] => .ok ([], [])
  | c :: rest => do
    let r1 ← indexInteriorChunks value recurse c.left_child (chunks2 c.keys)
    let r2 ← indexInteriorCells value recurse rest
    .ok (r1.1 ++ r2.1, r1.2 ++ r2.2)

/-- Chunk loop of `execute_index` on one leaf index cell (db.rs lines
140-149); only an exact key match pushes, a non-`Int24` second entry is
silently skipped. -/
def indexLeafChunks (value : Bytes) : List (List Record) → Except DbError (List Nat)
  | [] => .ok []
  | k :: rest => do
    let here ←
      match k.head? with
      | some (Record.text val) =>
        if value = val then
          match k.get? 1 with
          | some (Record.int24 rowid) => .ok [intToUsize rowid]
          | some _ => .ok ([] : List Nat)
          | none => .error (.panic .indexOutOfBounds)
        else .ok ([] : List Nat)
      | some _ => .ok ([] : List Nat)
      | none => .error (.panic .indexOutOfBounds)
    let more ← indexLeafChunks value rest
    .ok (here ++ more)

/-- Cell loop of `execute_index` on a leaf index page (db.rs lines 139-150). -/
def indexLeafCells (value : Bytes) : List LeafIndexCell → Except DbError (List Nat)
  | [] => .ok []
  | c :: rest => do
    let here ← indexLeafChunks value (chunks2 c.keys)
    let more ← indexLeafCells value rest
    .ok (here ++ more)

/-- `Database::execute_index` (db.rs lines 117-156).  First component:
the rowids pushed into `keys`, in push order.  Second component: the page
numbers read, in `read_page` order (instrumentation of the I/O the source
performs).  `fuel` bounds the recursion depth. -/
def executeIndex (db : Database) (value : Bytes) : Nat → Nat → Except DbError (List Nat × List Nat)
  | 0, _ => .error (.panic .stackOverflow)
  | fuel + 1, pageNum => do
    let page ← readPage db pageNum
    match page with
    | .interiorIndex rmptr cells => do
      let r1 ← indexInteriorCells value (fun p => executeIndex db value fuel p) cells
      let r2 ← executeIndex db value fuel rmptr
      .ok (r1.1 ++ r2.1, pageNum :: (r1.2 ++ r2.2))
    | .leafIndex cells => do
      let ks ← indexLeafCells value cells
      .ok (ks, [pageNum])
    | _ => .error (.err .invalidPageType)

/-- The per-row filter closure of `execute_select` (db.rs lines 269-288):
column lookup is `position(..).unwrap()` (a panic when the column is absent),
the stored value is compared as text, NULL is excluded, and any other stored
value hits `unimplemented!()` (a panic). -/
def rowPasses (columns : List ColumnDef) (condition : Option Condition)
    (cell : LeafTableCell) : Except DbError Bool :=
  match condition with
  | some (.equals column value) =>
    match columns.findIdx? (fun cd => decide (cd.name = column)) with
    | none => .error (.panic .unwrapNone)
    | some colIdx =>
      match cell.values.get? colIdx with
      | none => .error (.panic .indexOutOfBounds)
      | some (Record.text s) => .ok (decide (s = value))
      | some Record.null => .ok false
      | some _ => .error (.panic .unimplemented)
  | none => .ok true

/-- The `cells.iter().filter(..)` of `execute_select` (db.rs lines 267-289). -/
def scanFilter (columns : List ColumnDef) (condition : Option Condition) :
    List LeafTableCell → Except DbError (List LeafTableCell)
  | [] => .ok []
  | c :: rest => do
    let keep ← rowPasses columns condition c
    let more ← scanFilter columns condition rest
    .ok (if keep then c :: more else more)

/-- The rowid filter of `execute_select_with_index` (db.rs lines 177-186):
keep a cell iff its first value is an `Int64` whose `as usize` cast is in
`keys`; `cell.values[0]` panics on an empty value list. -/
def indexLeafFilter (keys : List Nat) :
    List LeafTableCell → Except DbError (List LeafTableCell)
  | [] => .ok []
  | c :: rest => do
    let keep ←
      match c.values.head? with
      | none => .error (.panic .indexOutOfBounds)
      | some (Record.int64 k) => .ok (keys.contains (intToUsize k))
      | some _ => .ok false
    let more ← indexLeafFilter keys rest
    .ok (if keep then c :: more else more)

/-- The projection loop body shared by db.rs lines 189-200 and 293-304:
for each selected column, skip a case-insensitive `count(*)`, otherwise look
the name up in the DDL (`nonexistent column` error result when absent) and
push `cell.values[col_idx]` (an indexing panic when the row is short). -/
def projectOne (columns : List ColumnDef) (selected : List Bytes)
    (values : List Record) : Except DbError (List Record) :=
  match selected with
  | [] => .ok []
  | col :: cols =>
    if lowerBytes col = countStar then projectOne columns cols values
    else
      match columns.findIdx? (fun cd => decide (cd.name = col)) with
      | none => .error (.err .nonexistentColumn)
      | some colIdx =>
        match values.get? colIdx with
        | none => .error (.panic .indexOutOfBounds)
        | some v => do
          let more ← projectOne columns cols values
          .ok (v :: more)

/-- Projection over the filtered cells, in cell order. -/
def projectRows (columns : List ColumnDef) (selected : List Bytes) :
    List LeafTableCell → Except DbError (List Record)
  | [] => .ok []
  | c :: rest => do
    let here ← projectOne columns selected c.values
    let more ← projectRows columns selected rest
    .ok (here ++ more)

/-- Child loop of `execute_select` on an interior table page (db.rs lines
307-313): recurse into every `left_child` in order, summing counts and
appending results. -/
def scanChildren (recurse : Nat → Except DbError (Nat × List Record)) :
    List InteriorTableCell → Except DbError (Nat × List Record)
  | [] => .ok (0, [])
  | c :: rest => do
    let r1 ← recurse c.left_child
    let r2 ← scanChildren recurse rest
    .ok (r1.1 + r2.1, r1.2 ++ r2.2)

/-- `Database::execute_select` (db.rs lines 244-321): the returned `count`
and the `results` pushed, for a `Select` statement.  A non-`Select` statement
is the source's `unreachable!()`. -/
def executeSelect (db : Database) (stmt : Statement) : Nat → Nat → Except DbError (Nat × List Record)
  | 0, _ => .error (.panic .stackOverflow)
  | fuel + 1, pageNum =>
    match stmt with
    | .select table selectedCols condition => do
      let page ← readPage db pageNum
      let sch ← getSchema db table
      match sch.sql with
      | .createTable _ columns =>
        match page with
        | .leafTable cells => do
          let passing ← scanFilter columns condition cells
          let rs ← projectRows columns selectedCols passing
          .ok (passing.length, rs)
        | .interiorTable rmptr cells => do
          let r1 ← scanChildren (fun p => executeSelect db stmt fuel p) cells
          let r2 ← executeSelect db stmt fuel rmptr
          .ok (r1.1 + r2.1, r1.2 ++ r2.2)
        | _ => .error (.err .invalidPageType)
      | _ => .ok (0, [])
    | _ => .error (.panic .unreachableHit)

/-- Window loop of `execute_select_with_index` on an interior table page
(db.rs lines 214-226): for each adjacent pair `(a, b)`, descend into
`b.left_child` when some key satisfies `a.row_id ≤ key < b.row_id`. -/
def descendWindows (recurse : Nat → Except DbError (List Record × Nat)) (keys : List Nat) :
    List (InteriorTableCell × InteriorTableCell) → Except DbError (List Record × Nat)
  | [] => .ok ([], 0)
  | (a, b) :: rest => do
    let r1 ←
      if keys.any (fun k => decide (k < b.row_id ∧ a.row_id ≤ k))
      then recurse b.left_child
      else .ok (([] : List Record), 0)
    let r2 ← descendWindows recurse keys rest
    .ok (r1.1 ++ r2.1, r1.2 + r2.2)

/-- `Database::execute_select_with_index` (db.rs lines 158-242).  First
component: the `results` pushed.  Second component: how many leaf cells passed
the rowid filter across the whole descent (instrumentation; the source keeps
those cells in its local `cells` vector).  On an interior page the descent
reads `cells[0]` (a panic when the page has no cells), then the windows, then
the right-most pointer under a strict `>` test. -/
def executeSelectWithIndex (db : Database) (stmt : Statement) :
    Nat → Nat → List Nat → Except DbError (List Record × Nat)
  | 0, _, _ => .error (.panic .stackOverflow)
  | fuel + 1, pageNum, keys =>
    match stmt with
    | .select table selectedCols _ => do
      let page ← readPage db pageNum
      match page with
      | .leafTable cells => do
        let sch ← getSchema db table
        match sch.sql with
        | .createTable _ columns => do
          let passing ← indexLeafFilter keys cells
          let rs ← projectRows columns selectedCols passing
          .ok (rs, passing.length)
        | _ => .ok ([], 0)
      | .interiorTable rmptr cells =>
        match cells with
        | [] => .error (.panic .indexOutOfBounds)
        | c0 :: tail => do
          let r1 ←
            if keys.any (fun k => decide (k < c0.row_id))
            then executeSelectWithIndex db stmt fuel c0.left_child keys
            else .ok (([] : List Record), 0)
          let r2 ← descendWindows
            (fun p => executeSelectWithIndex db stmt fuel p keys) keys (windows2 (c0 :: tail))
          let lastCell := List.getLast (c0 :: tail) (List.cons_ne_nil c0 tail)
          let r3 ←
            if keys.any (fun k => decide (lastCell.row_id < k))
            then executeSelectWithIndex db stmt fuel rmptr keys
            else .ok (([] : List Record), 0)
          .ok (r1.1 ++ r2.1 ++ r3.1, r1.2 + r2.2 + r3.2)
      | _ => .error (.panic .unreachableHit)
    | _ => .error (.panic .unreachableHit)

/-- What `execute_statement` prints for a `Select`: the count, or the flat
result list together with the number of non-`count(*)` columns used to place
the `|` separators and newlines. -/
inductive ExecOutput where
  | countOut (n : Nat)
  | rowsOut (results : List Record) (colCount : Nat)
  deriving DecidableEq, Repr

/-- `Database::execute_statement` (db.rs lines 56-115): plan choice between
full scan and index probe + rowid descent, then `count(*)` versus projection
output.  A non-`Select` statement is the source's `unimplemented!()`. -/
def executeStatement (db : Database) (stmt : Statement) (fuel : Nat) : Except DbError ExecOutput :=
  match stmt with
  | .select table selectedColumns condition => do
    let cr ←
      match condition with
      | none => do
        let rp ← getTableRootpage db table
        let r ← executeSelect db stmt fuel rp
        .ok (r.1, r.2)
      | some (.equals column value) =>
        match getIndexRootpage db table column with
        | some idxRoot => do
          let kt ← executeIndex db value fuel idxRoot
          let rp ← getTableRootpage db table
          let r ← executeSelectWithIndex db stmt fuel rp kt.1
          .ok (kt.1.length, r.1)
        | none => do
          let rp ← getTableRootpage db table
          let r ← executeSelect db stmt fuel rp
          .ok (r.1, r.2)
    let colCount := (selectedColumns.filter (fun c => decide (lowerBytes c ≠ countStar))).length
    match selectedColumns.head? with
    | none => .error (.panic .indexOutOfBounds)
    | some c0 =>
      if lowerBytes c0 = countStar then .ok (.countOut cr.1)
      else .ok (.rowsOut cr.2 colCount)
  | _ => .error (.panic .unimplemented)

/-- A catalog row as `DbLoader::read_schema` builds it, before any SQL
parsing: `sql` is the stored DDL text. -/
structure RawSchema where
  kind : SchemaKind
  name : Bytes
  tbl_name : Bytes
  rootpage : Nat
  sql : Bytes
  deriving DecidableEq, Repr

/-- Rust indexing `page[i]` (a panic when out of bounds). -/
def byteAt (page : Bytes) (i : Nat) : Except DbError Nat :=
  match page.get? i with
  | some b => .ok b
  | none => .error (.panic .indexOutOfBounds)

/-- Rust slicing `&page[ptr..]` (a panic when `ptr` exceeds the length). -/
def sliceFrom (page : Bytes) (ptr : Nat) : Except DbError Bytes :=
  if ptr ≤ page.length then .ok (page.drop ptr) else .error (.panic .indexOutOfBounds)

/-- Cell-pointer array read (db.rs lines 787-790): `count` big-endian u16
entries starting at `headerEnd`, the `i`-th at `headerEnd + i * 2`. -/
def cellPointersGo (page : Bytes) (headerEnd : Nat) : Nat → Nat → Except DbError (List Nat)
  | _, 0 => .ok []
  | i, n + 1 => do
    let hi ← byteAt page (headerEnd + i * 2)
    let lo ← byteAt page (headerEnd + i * 2 + 1)
    let rest ← cellPointersGo page headerEnd (i + 1) n
    .ok ((hi * 256 + lo) :: rest)

/-- The `sqlite_schema.type` string match (db.rs lines 831-837). -/
def schemaKindOf (b : Bytes) : Except DbError SchemaKind :=
  if b = [116, 97, 98, 108, 101] then .ok .table
  else if b = [105, 110, 100, 101, 120] then .ok .index
  else if b = [118, 105, 101, 119] then .ok .view
  else if b = [116, 114, 105, 103, 103, 101, 114] then .ok .trigger
  else .error (.err .invalidKind)

/-- Decode one `sqlite_schema` cell (db.rs lines 795-869): two varints
(payload length, rowid) and the record header, then the shape match
`[Text, Text, Text, Int8 | Int24, Text]` — any other serial-type shape,
including every other integer serial type in the rootpage slot, is the
`Invalid schema` error. -/
def schemaOfCell (page : Bytes) (ptr : Nat) : Except DbError RawSchema := do
  let cell ← sliceFrom page ptr
  let (_len, cell, _) ← parseVarint cell
  let (_id, cell, _) ← parseVarint cell
  let (recHeaderSize, cell, varintSize) ← parseVarint cell
  let (colTypes, cell) ← parseColTypes recHeaderSize cell varintSize recHeaderSize
  match colTypes with
  | [ColumnType.text typeLen, ColumnType.text nameLen, ColumnType.text tblNameLen,
     rpType, ColumnType.text sqlLen] =>
    if rpType = ColumnType.int8 ∨ rpType = ColumnType.int24 then do
      let (kindBytes, cell) ← splitAtE typeLen cell
      let kindText ← utf8Check kindBytes
      let kind ← schemaKindOf kindText
      let (nameBytes, cell) ← splitAtE nameLen cell
      let name ← utf8Check nameBytes
      let (tblBytes, cell) ← splitAtE tblNameLen cell
      let tblName ← utf8Check tblBytes
      let (cell, rootpage) ←
        if rpType = ColumnType.int8 then do
          let (v, r) ← beI8 cell
          .ok (r, intToUsize v)
        else do
          let (v, r) ← beI24 cell
          .ok (r, intToUsize v)
      let (sqlBytes, _) ← splitAtE sqlLen cell
      let sql ← utf8Check sqlBytes
      .ok { kind := kind, name := name, tbl_name := tblName, rootpage := rootpage, sql := sql }
    else .error (.err .invalidSchema)
  | _ => .error (.err .invalidSchema)

/-- Decode every schema cell in pointer order. -/
def schemasOfCells (page : Bytes) : List Nat → Except DbError (List RawSchema)
  | [] => .ok []
  | ptr :: rest => do
    let s ← schemaOfCell page ptr
    let more ← schemasOfCells page rest
    .ok (s :: more)

/-- `DbLoader::read_schema` (db.rs lines 759-877) on the raw bytes of page 1:
tag 5 (interior) is the source's `unimplemented!()`, tag 13 decodes the cells,
anything else is `Invalid schema page kind`. -/
def readSchema (page : Bytes) : Except DbError (List RawSchema) := do
  let tag ← byteAt page DB_HEADER_SIZE
  match tag with
  | 5 => .error (.panic .unimplemented)
  | 13 => do
    let hb3 ← byteAt page (3 + DB_HEADER_SIZE)
    let hb4 ← byteAt page (4 + DB_HEADER_SIZE)
    let _s5 ← byteAt page (5 + DB_HEADER_SIZE)
    let _s6 ← byteAt page (6 + DB_HEADER_SIZE)
    let numCells := hb3 * 256 + hb4
    let ptrs ← cellPointersGo page (8 + DB_HEADER_SIZE) 0 numCells
    schemasOfCells page ptrs
  | _ => .error (.err .invalidSchemaPageKind)

/-- Reference count, following the specification's words for property 8: the
number of leaf-table cells that pass the per-row filter under the full scan
(testable property: `count(*)` under the full-scan plan).  Same traversal
shape as `executeSelect`, with projection dropped. -/
def specScanChildren (recurse : Nat → Except DbError Nat) :
    List InteriorTableCell → Except DbError Nat
  | [] => .ok 0
  | c :: rest => do
    let n1 ← recurse c.left_child
    let n2 ← specScanChildren recurse rest
    .ok (n1 + n2)

/-- Reference full-scan matched-cell count (see `specScanChildren`). -/
def specScanMatchCount (db : Database) (table : Bytes) (cond : Option Condition) :
    Nat → Nat → Except DbError Nat
  | 0, _ => .error (.panic .stackOverflow)
  | fuel + 1, pageNum => do
    let page ← readPage db pageNum
    let sch ← getSchema db table
    match sch.sql with
    | .createTable _ columns =>
      match page with
      | .leafTable cells => do
        let passing ← scanFilter columns cond cells
        .ok passing.length
      | .interiorTable rmptr cells => do
        let n1 ← specScanChildren (fun p => specScanMatchCount db table cond fuel p) cells
        let n2 ← specScanMatchCount db table cond fuel rmptr
        .ok (n1 + n2)
      | _ => .error (.err .invalidPageType)
    | _ => .ok 0

/-- Reference rowid collector: the rowids of every leaf cell reachable from a
table root, in full-scan order (specification, traversal primitive F1). -/
def tableScanRowids (db : Database) : Nat → Nat → Except DbError (List Nat)
  | 0, _ => .error (.panic .stackOverflow)
  | fuel + 1, pageNum => do
    let page ← readPage db pageNum
    match page with
    | .leafTable cells => .ok (cells.map (fun c => c.row_id))
    | .interiorTable rmptr cells => do
      let r1 ← List.foldlM
        (fun acc c => do
          let r ← tableScanRowids db fuel c.left_child
          pure (acc ++ r))
        ([] : List Nat) cells
      let r2 ← tableScanRowids db fuel rmptr
      .ok (r1 ++ r2)
    | _ => .error (.err .invalidPageType)

/-- ASCII bytes of `t`. -/
def bT : Bytes := [116]

/-- ASCII bytes of `c`. -/
def bC : Bytes := [99]

/-- ASCII bytes of `id`. -/
def bId : Bytes := [105, 100]

/-- ASCII bytes of `v`. -/
def bV : Bytes := [118]

/-- ASCII bytes of `x`. -/
def bX : Bytes := [120]

/-- ASCII bytes of `y`. -/
def bY : Bytes := [121]

/-- ASCII bytes of `i`. -/
def bI : Bytes := [105]

/-- ASCII bytes of `a`. -/
def bA : Bytes := [97]

/-- ASCII bytes of `b`. -/
def bB : Bytes := [98]

/-- ASCII bytes of `text` (a data type name; its content is irrelevant). -/
def bTextTy : Bytes := [116, 101, 120, 116]

/-- Parsed DDL of table `t`: `CREATE TABLE t (id integer, c text)`. -/
def ddlT : Statement := .createTable bT [⟨bId, bTextTy⟩, ⟨bC, bTextTy⟩]

/-- Parsed DDL of the index `i` on `t(c)`. -/
def idxT : Statement := .createIndex bI bT [bC] false

/-- A well-formed database whose table B-tree has an interior level with a
single separator cell: rows 3 and 5 live in the left child (page 3, maximum
rowid 5 = the separator's row_id), row 8 in the right-most child (page 4).
Page 2 is the table root, page 5 the index root for `t(c)`; row 5 is the only
row whose `c` column is `v`.  The first DDL column is the integer primary key,
stored as NULL, so every decoded first value is `Int64(row_id)`. -/
def dbSep : Database :=
  { pages :=
      [ Page.leafTable []
      , Page.interiorTable 4 [⟨3, 5⟩]
      , Page.leafTable
          [ ⟨3, [Record.int64 3, Record.text bX]⟩
          , ⟨5, [Record.int64 5, Record.text bV]⟩ ]
      , Page.leafTable [⟨8, [Record.int64 8, Record.text bY]⟩]
      , Page.leafIndex
          [ ⟨[Record.text bV, Record.int24 5]⟩
          , ⟨[Record.text bX, Record.int24 3]⟩
          , ⟨[Record.text bY, Record.int24 8]⟩ ] ]
  , schema :=
      [ ⟨SchemaKind.table, bT, bT, 2, ddlT⟩
      , ⟨SchemaKind.index, bI, bT, 5, idxT⟩ ] }

/-- `SELECT c FROM t WHERE c = 'v'`. -/
def stmtSel : Statement := .select bT [bC] (some (.equals bC bV))

/-- `SELECT count(*) FROM t WHERE c = 'v'`. -/
def stmtCount : Statement := .select bT [countStar] (some (.equals bC bV))

/-- `SELECT count(*) FROM t`. -/
def stmtCountNoCond : Statement := .select bT [countStar] none

/-- ASCII bytes of `p`. -/
def bP : Bytes := [112]

/-- ASCII bytes of `q`. -/
def bQ : Bytes := [113]

/-- ASCII bytes of `zzz`. -/
def bZzz : Bytes := [122, 122, 122]

/-- Parsed DDL of table `p`: columns `id`, `c`; row 1 stores an `Int8` in
column `c`. -/
def ddlP : Statement := .createTable bP [⟨bId, bTextTy⟩, ⟨bC, bTextTy⟩]

/-- Database whose only table row stores the non-text, non-NULL value
`Int8 7` in the condition column `c`; no index exists. -/
def dbPanic : Database :=
  { pages :=
      [ Page.leafTable []
      , Page.leafTable [⟨1, [Record.int64 1, Record.int8 7]⟩] ]
  , schema := [⟨SchemaKind.table, bP, bP, 2, ddlP⟩] }

/-- `SELECT c FROM p WHERE c = 'v'`. -/
def stmtPanic : Statement := .select bP [bC] (some (.equals bC bV))

/-- Parsed DDL of table `q`: columns `id`, `c`. -/
def ddlQ : Statement := .createTable bQ [⟨bId, bTextTy⟩, ⟨bC, bTextTy⟩]

/-- Database with table `q` (columns `id`, `c`), one text row, no index. -/
def dbQ : Database :=
  { pages :=
      [ Page.leafTable []
      , Page.leafTable [⟨1, [Record.int64 1, Record.text bA]⟩] ]
  , schema := [⟨SchemaKind.table, bQ, bQ, 2, ddlQ⟩] }

/-- `SELECT c FROM q WHERE zzz = 'v'` — the condition column `zzz` is not in
`q`'s DDL and no index covers it. -/
def stmtUnknownCol : Statement := .select bQ [bC] (some (.equals bZzz bV))

/-- A well-ordered two-level index B-tree: root page 2 is an interior index
page with one cell (separator key `b`, rowid 5, left child page 3) and
right-most pointer page 4; keys below `b` (here `a`, rowid 1) live on page 3,
keys at or above `b` (here `c`, rowid 9) on page 4. -/
def dbIdx2 : Database :=
  { pages :=
      [ Page.leafTable []
      , Page.interiorIndex 4 [⟨3, [Record.text bB, Record.int24 5]⟩]
      , Page.leafIndex [⟨[Record.text bA, Record.int24 1]⟩]
      , Page.leafIndex [⟨[Record.text bC, Record.int24 9]⟩] ]
  , schema := [] }

/-- One `sqlite_schema` leaf cell for the row
`(type = "table", name = "t", tbl_name = "t", rootpage, sql = "x")`, with the
rootpage column stored under serial type `serial` and payload `body`. -/
def mkSchemaCell (serial : Nat) (body : Bytes) : Bytes :=
  [14 + body.length, 1, 6, 23, 15, 15, serial, 15]
    ++ [116, 97, 98, 108, 101] ++ [116] ++ [116] ++ body ++ [120]

/-- A page-1 byte image holding exactly one `sqlite_schema` cell (leaf-table
tag 13 at offset 100, one cell, pointer array at 108 pointing to offset
120). -/
def mkSchemaPage (serial : Nat) (body : Bytes) : Bytes :=
  List.replicate 100 0 ++ [13, 0, 0, 0, 1, 0, 0, 0] ++ [0, 120]
    ++ List.replicate 10 0 ++ mkSchemaCell serial body

/-- C1 (code bug evaluation): over the well-formed database `dbSep`, whose
catalog has an index covering `c`, the query `SELECT c FROM t WHERE c = 'v'`
yields one row (`v`) under the full-scan plan but no rows under the
index-assisted plan: the probe collects rowid 5, yet the rowid-directed
descent fetches nothing because 5 equals the interior separator's row_id, so
the two plans' result multisets differ. -/
theorem c1_index_plan_misses_separator_row :
    executeIndex dbSep bV 10 5 = .ok ([5], [5]) ∧
    executeSelectWithIndex dbSep stmtSel 10 2 [5] = .ok ([], 0) ∧
    executeSelect dbSep stmtSel 10 2 = .ok (1, [Record.text bV]) ∧
    Multiset.ofList ([] : List Record) ≠ Multiset.ofList [Record.text bV] := by
  refine ⟨rfl, rfl, rfl, ?_⟩
  intro h
  simpa using congrArg Multiset.card h

/-- C2 (code bug evaluation): rowid 5 is present in the table rooted at page 2
of `dbSep` (the full scan lists rowids 3, 5, 8), yet the rowid-directed
descent with key set `{5}` fetches zero rows — rowid 5 equals the interior
cell's separator row_id, the maximum rowid reachable through that cell's left
child, and none of the descent conditions (`key < b₀`, `b₀ ≤ key < b₁`,
`key > b_last`) admits it. -/
theorem c2_descent_misses_separator_rowid :
    tableScanRowids dbSep 10 2 = .ok [3, 5, 8] ∧
    executeSelectWithIndex dbSep stmtSel 10 2 [5] = .ok ([], 0) :=
  ⟨rfl, rfl⟩

/-- C3 (counterexample): for `SELECT count(*) FROM t WHERE c = 'v'` on
`dbSep`, the printed count is 1 — the size of the probe's rowid list — while
the rowid-directed descent fetches 0 rows, so the printed count does not equal
the number of rows the chosen (index-assisted) plan visits. -/
theorem c3_count_is_probe_size_not_rows_fetched :
    executeStatement dbSep stmtCount 10 = .ok (.countOut 1) ∧
    executeSelectWithIndex dbSep stmtCount 10 2 [5] = .ok ([], 0) :=
  ⟨rfl, rfl⟩

/-- C4 (counterexample): nine continuation bytes (top bit set) form a valid
9-byte varint per the claim (9th byte terminates, contributing 8 bits), but
`parse_varint` does not treat the 9th byte specially: it keeps scanning,
exhausts the input and fails. -/
theorem c4_nine_continuation_bytes_fail :
    parseVarint (List.replicate 9 128) = .error (.err .varintIncomplete) := rfl

set_option maxRecDepth 10000 in
/-- C5 (counterexample): a `sqlite_schema` row whose rootpage is stored with
the integer serial type 2 (`Int16`) is rejected by the catalog reader with the
`Invalid schema` error instead of being decoded. -/
theorem c5_int16_rootpage_rejected :
    readSchema (mkSchemaPage 2 [0, 3]) = .error (.err .invalidSchema) := rfl

/-- C6 (counterexample): probing the well-ordered index of `dbIdx2` for key
`a`, which is byte-wise less than the root's only cell key `b`, descends into
the left child (page 3) but does not stop: the traversal also reads the
right-most child (page 4), as the visited-page trace `[2, 3, 4]` shows —
contradicting "descend and stop; right-most only without such a stop". -/
theorem c6_rightmost_visited_after_less_than :
    executeIndex dbIdx2 bA 10 2 = .ok ([1], [2, 3, 4]) ∧ (4 : Nat) ∈ [2, 3, 4] :=
  ⟨rfl, by decide⟩

/-- C7 (counterexample): with no index and the condition `c = 'v'`, a row
storing the non-text, non-NULL value `Int8 7` in column `c` makes the query
abort through the `unimplemented!()` panic — not through an
`UnsupportedComparison` error result (the `DbError.err` channel). -/
theorem c7_nontext_value_panics :
    executeStatement dbPanic stmtPanic 10 = .error (.panic .unimplemented) := rfl

/-- C10: `SELECT c FROM q WHERE zzz = 'v'` where column `zzz` is not in `q`'s
parsed CREATE TABLE column list and no index covers it: the filter's
`position(..).unwrap()` is an unwrap of `None`, so execution panics instead of
producing an error result. -/
theorem c10_unknown_column_lookup_panics :
    executeStatement dbQ stmtUnknownCol 10 = .error (.panic .unwrapNone) := rfl

set_option maxRecDepth 10000 in
/-- C5 (amended): the catalog reader decodes the rootpage only from serial
types 1 (`Int8`) and 3 (`Int24`); under every other integer serial type
(2, 4, 5, 6, and the constants 8, 9) the row is rejected with the
`Invalid schema` error.  Shown on one-row schema pages identical except for
the rootpage serial type and payload. -/
theorem c5_rootpage_only_int8_or_int24 :
    readSchema (mkSchemaPage 1 [3]) =
      .ok [⟨SchemaKind.table, bT, bT, 3, bX⟩] ∧
    readSchema (mkSchemaPage 3 [0, 0, 3]) =
      .ok [⟨SchemaKind.table, bT, bT, 3, bX⟩] ∧
    readSchema (mkSchemaPage 4 [0, 0, 0, 3]) = .error (.err .invalidSchema) ∧
    readSchema (mkSchemaPage 5 [0, 0, 0, 0, 0, 3]) = .error (.err .invalidSchema) ∧
    readSchema (mkSchemaPage 6 [0, 0, 0, 0, 0, 0, 0, 3]) = .error (.err .invalidSchema) ∧
    readSchema (mkSchemaPage 8 []) = .error (.err .invalidSchema) ∧
    readSchema (mkSchemaPage 9 []) = .error (.err .invalidSchema) :=
  ⟨rfl, rfl, rfl, rfl, rfl, rfl, rfl⟩

/-- C8: decoding serial type 5 (Int48) prepends two zero bytes to the six
payload bytes, producing the unsigned big-endian 48-bit widening: the decoded
value is the plain big-endian number of the six bytes, non-negative and below
`2 ^ 48`, never sign-extended — even when the top bit of the first payload
byte is set. -/
theorem c8_int48_unsigned_widening (b0 b1 b2 b3 b4 b5 : Nat) (rest : Bytes) (id : Nat)
    (h0 : b0 < 256) (h1 : b1 < 256) (h2 : b2 < 256) (h3 : b3 < 256)
    (h4 : b4 < 256) (h5 : b5 < 256) :
    materializeValues id [ColumnType.int48] (b0 :: b1 :: b2 :: b3 :: b4 :: b5 :: rest) =
      .ok [Record.int48
        ((b0 * 2 ^ 40 + b1 * 2 ^ 32 + b2 * 2 ^ 24 + b3 * 2 ^ 16 + b4 * 2 ^ 8 + b5 : Nat) : Int)] ∧
    (0 : Int) ≤ ((b0 * 2 ^ 40 + b1 * 2 ^ 32 + b2 * 2 ^ 24 + b3 * 2 ^ 16 + b4 * 2 ^ 8 + b5 : Nat) : Int) ∧
    ((b0 * 2 ^ 40 + b1 * 2 ^ 32 + b2 * 2 ^ 24 + b3 * 2 ^ 16 + b4 * 2 ^ 8 + b5 : Nat) : Int) < 2 ^ 48 := by
  have hval : beNat [0, 0, b0, b1, b2, b3, b4, b5] =
      b0 * 2 ^ 40 + b1 * 2 ^ 32 + b2 * 2 ^ 24 + b3 * 2 ^ 16 + b4 * 2 ^ 8 + b5 := by
    simp [beNat]; ring
  have hlt : b0 * 2 ^ 40 + b1 * 2 ^ 32 + b2 * 2 ^ 24 + b3 * 2 ^ 16 + b4 * 2 ^ 8 + b5 < 2 ^ 48 := by
    norm_num
    omega
  refine ⟨?_, Int.ofNat_nonneg _, by exact_mod_cast hlt⟩
  have hcond : b0 * 2 ^ 40 + b1 * 2 ^ 32 + b2 * 2 ^ 24 + b3 * 2 ^ 16 + b4 * 2 ^ 8 + b5 <
      2 ^ (64 - 1) := by
    norm_num
    omega
  simp only [materializeValues, materializeValuesGo, readInt48, hval, toSigned, if_pos hcond]
  rfl

/-- C8 (witness): six payload bytes `FF 00 00 00 00 00`, whose first byte has
the top bit set, decode to the non-negative value `255 * 2 ^ 40`. -/
theorem c8_int48_unsigned_widening_witness :
    (255 : Nat) < 256 ∧
    (materializeValues 0 [ColumnType.int48] [255, 0, 0, 0, 0, 0] =
      .ok [Record.int48
        ((255 * 2 ^ 40 + 0 * 2 ^ 32 + 0 * 2 ^ 24 + 0 * 2 ^ 16 + 0 * 2 ^ 8 + 0 : Nat) : Int)] ∧
    (0 : Int) ≤ ((255 * 2 ^ 40 + 0 * 2 ^ 32 + 0 * 2 ^ 24 + 0 * 2 ^ 16 + 0 * 2 ^ 8 + 0 : Nat) : Int) ∧
    ((255 * 2 ^ 40 + 0 * 2 ^ 32 + 0 * 2 ^ 24 + 0 * 2 ^ 16 + 0 * 2 ^ 8 + 0 : Nat) : Int) < 2 ^ 48) :=
  ⟨by decide,
   c8_int48_unsigned_widening 255 0 0 0 0 0 [] 0 (by decide) (by decide) (by decide)
     (by decide) (by decide) (by decide)⟩

/-- C7 (amended): with the condition `column = 'v'` and the column present at
index `i` of the DDL, the full-scan per-row filter excludes a row whose stored
value at `i` is NULL (`ok false`), compares a text value byte-wise, and
aborts through the `unimplemented!()` panic — not an error result — on every
other stored value. -/
theorem c7_filter_null_excluded_nontext_panics (columns : List ColumnDef) (col v : Bytes) (cell : LeafTableCell) (i : Nat)
    (hidx : columns.findIdx? (fun cd => decide (cd.name = col)) = some i) :
    (cell.values.get? i = some Record.null →
      rowPasses columns (some (Condition.equals col v)) cell = .ok false) ∧
    (∀ s, cell.values.get? i = some (Record.text s) →
      rowPasses columns (some (Condition.equals col v)) cell = .ok (decide (s = v))) ∧
    (∀ r, cell.values.get? i = some r → r ≠ Record.null → (∀ s, r ≠ Record.text s) →
      rowPasses columns (some (Condition.equals col v)) cell = .error (.panic .unimplemented)) := by
  refine ⟨?_, ?_, ?_⟩
  · intro hv
    simp only [List.get?_eq_getElem?] at hv
    simp [rowPasses, hidx, hv]
  · intro s hv
    simp only [List.get?_eq_getElem?] at hv
    simp [rowPasses, hidx, hv]
  · intro r hv hnn hnt
    simp only [List.get?_eq_getElem?] at hv
    cases r
    case null => exact absurd rfl hnn
    case text s => exact absurd rfl (hnt s)
    all_goals simp [rowPasses, hidx, hv]


/-- C7 (witness): the three filter behaviours at concrete rows of a table with
columns `id`, `c`: a NULL in `c` is excluded, text compares, and `Int8 7`
panics. -/
theorem c7_filter_null_excluded_nontext_panics_witness :
    (rowPasses [⟨bId, bTextTy⟩, ⟨bC, bTextTy⟩] (some (Condition.equals bC bV))
        ⟨1, [Record.int64 1, Record.null]⟩ = .ok false) ∧
    (rowPasses [⟨bId, bTextTy⟩, ⟨bC, bTextTy⟩] (some (Condition.equals bC bV))
        ⟨1, [Record.int64 1, Record.text bV]⟩ = .ok (decide (bV = bV))) ∧
    (rowPasses [⟨bId, bTextTy⟩, ⟨bC, bTextTy⟩] (some (Condition.equals bC bV))
        ⟨1, [Record.int64 1, Record.int8 7]⟩ = .error (.panic .unimplemented)) :=
  ⟨(c7_filter_null_excluded_nontext_panics [⟨bId, bTextTy⟩, ⟨bC, bTextTy⟩] bC bV ⟨1, [Record.int64 1, Record.null]⟩ 1 rfl).1 rfl,
   (c7_filter_null_excluded_nontext_panics [⟨bId, bTextTy⟩, ⟨bC, bTextTy⟩] bC bV ⟨1, [Record.int64 1, Record.text bV]⟩ 1 rfl).2.1 bV rfl,
   (c7_filter_null_excluded_nontext_panics [⟨bId, bTextTy⟩, ⟨bC, bTextTy⟩] bC bV ⟨1, [Record.int64 1, Record.int8 7]⟩ 1 rfl).2.2
     (Record.int8 7) rfl (by simp) (fun s => by simp)⟩

/-- C6 (amended): on every interior index page the probe reaches, the cell
loop runs over the whole cell list and the right-most pointer is then
descended unconditionally — also when the search key was byte-wise less than
some cell's key (the loop has no stop): any successful probe of such a page
decomposes into the full cell-loop traversal followed by a completed traversal
of the right-most child. -/
theorem c6_interior_index_always_descends_rightmost (db : Database) (value : Bytes)
    (f pn rmptr : Nat) (cells : List InteriorIndexCell) (ks tr : List Nat)
    (hread : readPage db pn = .ok (Page.interiorIndex rmptr cells))
    (hex : executeIndex db value (f + 1) pn = .ok (ks, tr)) :
    ∃ r1 r2, indexInteriorCells value (fun p => executeIndex db value f p) cells = .ok r1 ∧
      executeIndex db value f rmptr = .ok r2 ∧
      ks = r1.1 ++ r2.1 ∧ tr = pn :: (r1.2 ++ r2.2) := by
  simp only [executeIndex, hread, bind, Except.bind] at hex
  cases h1 : indexInteriorCells value (fun p => executeIndex db value f p) cells with
  | error e => simp [h1] at hex
  | ok r1 =>
    rw [h1] at hex
    cases h2 : executeIndex db value f rmptr with
    | error e => rw [h2] at hex; cases hex
    | ok r2 =>
      rw [h2] at hex
      simp only [Except.ok.injEq, Prod.mk.injEq] at hex
      exact ⟨r1, r2, rfl, rfl, hex.1.symm, hex.2.symm⟩

/-- C6 (witness): the interior root of `dbIdx2` probed for `a` (less than the
only separator `b`): the traversal of the right-most child page 4 completes
and its page read appears in the trace `[2, 3, 4]`. -/
theorem c6_interior_index_always_descends_rightmost_witness :
    ∃ r1 r2,
      indexInteriorCells bA (fun p => executeIndex dbIdx2 bA 9 p)
        [⟨3, [Record.text bB, Record.int24 5]⟩] = .ok r1 ∧
      executeIndex dbIdx2 bA 9 4 = .ok r2 ∧
      ([1] : List Nat) = r1.1 ++ r2.1 ∧ ([2, 3, 4] : List Nat) = 2 :: (r1.2 ++ r2.2) :=
  c6_interior_index_always_descends_rightmost dbIdx2 bA 9 2 4
    [⟨3, [Record.text bB, Record.int24 5]⟩] [1] [2, 3, 4] rfl rfl

/-- C9: in the index-assisted plan a leaf row is matched by its decoded first
value, not its stored row_id: (1) the rowid filter keeps exactly the cells
whose first value is an `Int64` whose cast is in the collected key set —
a first value of any other variant is never returned; (2) the decoder
substitutes `Int64(row_id as i64)` for a NULL first serial type, regardless of
any DDL; (3) a first serial type that is neither NULL nor the 8-byte integer
type never decodes to an `Int64` first value. -/
theorem c9_index_fetch_keyed_on_first_value :
    (∀ (keys : List Nat) (cells : List LeafTableCell) (out : List LeafTableCell),
      indexLeafFilter keys cells = .ok out →
      out = cells.filter (fun c =>
        match c.values.head? with
        | some (Record.int64 k) => keys.contains (intToUsize k)
        | _ => false)) ∧
    (∀ (id : Nat) (cts : List ColumnType) (payload : Bytes) (out : List Record),
      materializeValues id (ColumnType.null :: cts) payload = .ok out →
      out.head? = some (Record.int64 (u64ToI64 id))) ∧
    (∀ (id : Nat) (ct : ColumnType) (cts : List ColumnType) (payload : Bytes) (out : List Record),
      materializeValues id (ct :: cts) payload = .ok out →
      ct ≠ ColumnType.null → ct ≠ ColumnType.int64 →
      ∀ k, out.head? ≠ some (Record.int64 k)) := by
  refine ⟨?_, ?_, ?_⟩
  · intro keys cells
    induction cells with
    | nil =>
      intro out h
      simp only [indexLeafFilter, Except.ok.injEq] at h
      simp [← h]
    | cons c rest ih =>
      intro out h
      cases hv : c.values.head? with
      | none => simp [indexLeafFilter, hv, bind, Except.bind] at h
      | some r =>
        cases hrest : indexLeafFilter keys rest with
        | error e =>
          cases r <;> simp [indexLeafFilter, hv, hrest, bind, Except.bind] at h
        | ok more =>
          have hm := ih more hrest
          cases r <;>
            simp only [indexLeafFilter, hv, hrest, bind, Except.bind, Except.ok.injEq] at h <;>
            simp [List.filter_cons, hv, ← h, hm]
  · intro id cts payload out h
    simp only [materializeValues, materializeValuesGo, if_pos rfl] at h
    cases hm : materializeValuesGo id 1 payload cts with
    | error e => rw [hm] at h; cases h
    | ok more =>
      rw [hm] at h
      simp only [bind, Except.bind, Except.ok.injEq] at h
      simp [← h]
  · intro id ct cts payload out h hnn hn64 k
    cases ct
    case null => exact absurd rfl hnn
    case int64 => exact absurd rfl hn64
    case zero =>
      simp only [materializeValues, materializeValuesGo] at h
      cases hm : materializeValuesGo id 1 payload cts with
      | error e => rw [hm] at h; cases h
      | ok more => rw [hm] at h; simp only [bind, Except.bind, Except.ok.injEq] at h; simp [← h]
    case one =>
      simp only [materializeValues, materializeValuesGo] at h
      cases hm : materializeValuesGo id 1 payload cts with
      | error e => rw [hm] at h; cases h
      | ok more => rw [hm] at h; simp only [bind, Except.bind, Except.ok.injEq] at h; simp [← h]
    case reserved1 =>
      simp only [materializeValues, materializeValuesGo] at h
      cases hm : materializeValuesGo id 1 payload cts with
      | error e => rw [hm] at h; cases h
      | ok more => rw [hm] at h; simp only [bind, Except.bind, Except.ok.injEq] at h; simp [← h]
    case reserved2 =>
      simp only [materializeValues, materializeValuesGo] at h
      cases hm : materializeValuesGo id 1 payload cts with
      | error e => rw [hm] at h; cases h
      | ok more => rw [hm] at h; simp only [bind, Except.bind, Except.ok.injEq] at h; simp [← h]
    case int8 =>
      simp only [materializeValues, materializeValuesGo] at h
      cases hr : beI8 payload with
      | error e => rw [hr] at h; cases h
      | ok vr =>
        rw [hr] at h
        cases hm : materializeValuesGo id 1 vr.2 cts with
        | error e => simp [hm, bind, Except.bind] at h
        | ok more => simp only [hm, bind, Except.bind, Except.ok.injEq] at h; simp [← h]
    case int16 =>
      simp only [materializeValues, materializeValuesGo] at h
      cases hr : beI16 payload with
      | error e => rw [hr] at h; cases h
      | ok vr =>
        rw [hr] at h
        cases hm : materializeValuesGo id 1 vr.2 cts with
        | error e => simp [hm, bind, Except.bind] at h
        | ok more => simp only [hm, bind, Except.bind, Except.ok.injEq] at h; simp [← h]
    case int24 =>
      simp only [materializeValues, materializeValuesGo] at h
      cases hr : beI24 payload with
      | error e => rw [hr] at h; cases h
      | ok vr =>
        rw [hr] at h
        cases hm : materializeValuesGo id 1 vr.2 cts with
        | error e => simp [hm, bind, Except.bind] at h
        | ok more => simp only [hm, bind, Except.bind, Except.ok.injEq] at h; simp [← h]
    case int32 =>
      simp only [materializeValues, materializeValuesGo] at h
      cases hr : beI32 payload with
      | error e => rw [hr] at h; cases h
      | ok vr =>
        rw [hr] at h
        cases hm : materializeValuesGo id 1 vr.2 cts with
        | error e => simp [hm, bind, Except.bind] at h
        | ok more => simp only [hm, bind, Except.bind, Except.ok.injEq] at h; simp [← h]
    case int48 =>
      simp only [materializeValues, materializeValuesGo] at h
      cases hr : readInt48 payload with
      | error e => rw [hr] at h; cases h
      | ok vr =>
        rw [hr] at h
        cases hm : materializeValuesGo id 1 vr.2 cts with
        | error e => simp [hm, bind, Except.bind] at h
        | ok more => simp only [hm, bind, Except.bind, Except.ok.injEq] at h; simp [← h]
    case float =>
      simp only [materializeValues, materializeValuesGo] at h
      cases hr : beF64 payload with
      | error e => rw [hr] at h; cases h
      | ok vr =>
        rw [hr] at h
        cases hm : materializeValuesGo id 1 vr.2 cts with
        | error e => simp [hm, bind, Except.bind] at h
        | ok more => simp only [hm, bind, Except.bind, Except.ok.injEq] at h; simp [← h]
    case blob len =>
      simp only [materializeValues, materializeValuesGo] at h
      cases hr : splitAtE len payload with
      | error e => rw [hr] at h; cases h
      | ok vr =>
        rw [hr] at h
        cases hm : materializeValuesGo id 1 vr.2 cts with
        | error e => simp [hm, bind, Except.bind] at h
        | ok more => simp only [hm, bind, Except.bind, Except.ok.injEq] at h; simp [← h]
    case text len =>
      simp only [materializeValues, materializeValuesGo] at h
      cases hr : splitAtE len payload with
      | error e => rw [hr] at h; cases h
      | ok vr =>
        rw [hr] at h
        cases ht : utf8Check vr.1 with
        | error e => simp [ht, bind, Except.bind] at h
        | ok t =>
          cases hm : materializeValuesGo id 1 vr.2 cts with
          | error e => simp [ht, hm, bind, Except.bind] at h
          | ok more => simp only [ht, hm, bind, Except.bind, Except.ok.injEq] at h; simp [← h]

/-- C9 (witness): the filter characterization at `dbSep`'s left leaf with key
set `{5}` (only row 5 is kept); NULL-substitution head for rowid 7; an `Int8`
first value is not an `Int64`. -/
theorem c9_index_fetch_keyed_on_first_value_witness :
    (([⟨5, [Record.int64 5, Record.text bV]⟩] : List LeafTableCell) =
      ([ ⟨3, [Record.int64 3, Record.text bX]⟩
       , ⟨5, [Record.int64 5, Record.text bV]⟩ ] : List LeafTableCell).filter (fun c =>
        match c.values.head? with
        | some (Record.int64 k) => List.contains [5] (intToUsize k)
        | _ => false)) ∧
    ([Record.int64 (u64ToI64 7)] : List Record).head? = some (Record.int64 (u64ToI64 7)) ∧
    ([Record.int8 1] : List Record).head? ≠ some (Record.int64 0) :=
  ⟨c9_index_fetch_keyed_on_first_value.1 [5]
      [⟨3, [Record.int64 3, Record.text bX]⟩, ⟨5, [Record.int64 5, Record.text bV]⟩]
      [⟨5, [Record.int64 5, Record.text bV]⟩] rfl,
   c9_index_fetch_keyed_on_first_value.2.1 7 [] [] [Record.int64 (u64ToI64 7)] rfl,
   c9_index_fetch_keyed_on_first_value.2.2 0 ColumnType.int8 [] [1] [Record.int8 (toSigned 8 1)]
     rfl (by decide) (by decide) 0⟩

/-- Helper: `parse_varint`'s loop consumes continuation bytes one at a time
and stops at the first byte with the top bit clear, provided it arrives
within the first 10 bytes. -/
lemma parseVarintGo_valid (pre : Bytes) :
    ∀ (last : Nat) (rest : Bytes) (acc idx : Nat),
      idx + pre.length ≤ 9 → (∀ b ∈ pre, b &&& 128 ≠ 0) → last &&& 128 = 0 →
      parseVarintGo acc idx (pre ++ last :: rest) =
        .ok (List.foldl varintStep acc (pre ++ [last]), rest, idx + pre.length + 1) := by
  induction pre with
  | nil =>
    intro last rest acc idx hlen _ hterm
    simp only [List.nil_append, parseVarintGo, List.foldl]
    rw [if_neg (by omega), if_pos hterm]
    simp
  | cons b pre ih =>
    intro last rest acc idx hlen hcont hterm
    have hb : b &&& 128 ≠ 0 := hcont b (List.mem_cons_self b pre)
    simp only [List.cons_append, parseVarintGo]
    rw [if_neg (by simp at hlen; omega), if_neg hb]
    simp only [List.append_eq]
    rw [ih last rest (varintStep acc b) (idx + 1) (by simp at hlen ⊢; omega)
      (fun x hx => hcont x (List.mem_cons_of_mem b hx)) hterm]
    simp only [List.foldl_cons]
    have h3 : idx + 1 + pre.length + 1 = idx + (b :: pre).length + 1 := by
      simp
      omega
    rw [h3]

/-- Helper: when every examined byte has the top bit set, the loop fails —
`Varint is incomplete` when the input ends by index 10, `Varint is too long`
otherwise. -/
lemma parseVarintGo_cont (data : Bytes) :
    ∀ acc idx, idx ≤ 10 → (∀ b ∈ data.take (10 - idx), b &&& 128 ≠ 0) →
      parseVarintGo acc idx data =
        .error (.err (if data.length + idx ≤ 10 then ErrKind.varintIncomplete
          else ErrKind.varintTooLong)) := by
  induction data with
  | nil =>
    intro acc idx hidx _
    simp only [parseVarintGo, List.length_nil]
    rw [if_pos (by omega)]
  | cons b rest ih =>
    intro acc idx hidx hcont
    by_cases h10 : 10 ≤ idx
    · simp only [parseVarintGo]
      rw [if_pos h10, if_neg (by simp; omega)]
    · have htk : 10 - idx = (10 - (idx + 1)) + 1 := by omega
      have hb : b &&& 128 ≠ 0 := by
        apply hcont
        rw [htk, List.take_succ_cons]
        exact List.mem_cons_self b _
      simp only [parseVarintGo]
      rw [if_neg h10, if_neg hb]
      rw [ih (varintStep acc b) (idx + 1) (by omega) ?_]
      · have : rest.length + (idx + 1) = (b :: rest).length + idx := by simp; omega
        rw [this]
      · intro x hx
        apply hcont
        rw [htk, List.take_succ_cons]
        exact List.mem_cons_of_mem b hx

/-- C4 (amended): `parse_varint` succeeds exactly on byte sequences whose
first terminator (top bit clear) occurs among the first 10 bytes: with `L - 1`
continuation bytes before it (`L ≤ 10`) it returns `consumed = L` and the
7-bit-per-byte accumulated value — there is no special 8-bit ninth byte.
When the first 10 bytes all have the top bit set it fails: `Varint is
incomplete` if the input ends, `Varint is too long` if an 11th byte exists. -/
theorem c4_parse_varint_characterization :
    (∀ (pre : Bytes) (last : Nat) (rest : Bytes),
      pre.length ≤ 9 → (∀ b ∈ pre, b &&& 128 ≠ 0) → last &&& 128 = 0 →
      parseVarint (pre ++ last :: rest) =
        .ok (varintValue (pre ++ [last]), rest, pre.length + 1)) ∧
    (∀ data : Bytes, (∀ b ∈ data.take 10, b &&& 128 ≠ 0) →
      parseVarint data = .error (.err (if data.length ≤ 10 then ErrKind.varintIncomplete
        else ErrKind.varintTooLong))) := by
  constructor
  · intro pre last rest hlen hcont hterm
    have h := parseVarintGo_valid pre last rest 0 0 (by omega) hcont hterm
    simpa [parseVarint, varintValue] using h
  · intro data hcont
    have h := parseVarintGo_cont data 0 0 (by omega) (by simpa using hcont)
    simpa [parseVarint] using h

/-- C4 (witness): the two-byte varint `80 01` decodes to value 1 with
`consumed = 2`; eleven `FF` bytes fail with `Varint is too long`. -/
theorem c4_parse_varint_characterization_witness :
    (parseVarint ([128] ++ 1 :: []) = .ok (varintValue ([128] ++ [1]), [], [128].length + 1)) ∧
    (parseVarint (List.replicate 11 255) =
      .error (.err (if (List.replicate 11 255).length ≤ 10 then ErrKind.varintIncomplete
        else ErrKind.varintTooLong))) :=
  ⟨c4_parse_varint_characterization.1 [128] 1 [] (by decide) (by decide) (by decide),
   c4_parse_varint_characterization.2 (List.replicate 11 255) (by decide)⟩

/-- Helper: child-by-child, a successful scan's count agrees with the
reference count. -/
lemma scanChildren_count (es : Nat → Except DbError (Nat × List Record))
    (ss : Nat → Except DbError Nat)
    (hrec : ∀ pn c rs, es pn = .ok (c, rs) → ss pn = .ok c) :
    ∀ (cells : List InteriorTableCell) (r : Nat × List Record),
      scanChildren es cells = .ok r → specScanChildren ss cells = .ok r.1 := by
  intro cells
  induction cells with
  | nil =>
    intro r h
    simp only [scanChildren, Except.ok.injEq] at h
    simp [specScanChildren, ← h]
  | cons c rest ih =>
    intro r h
    simp only [scanChildren] at h
    cases h1 : es c.left_child with
    | error e => simp [h1, bind, Except.bind] at h
    | ok r1 =>
      cases h2 : scanChildren es rest with
      | error e => simp [h1, h2, bind, Except.bind] at h
      | ok r2 =>
        simp only [h1, h2, bind, Except.bind, Except.ok.injEq] at h
        simp only [specScanChildren, hrec c.left_child r1.1 r1.2 h1, ih r2 h2,
          bind, Except.bind, Except.ok.injEq]
        rw [← h]

/-- Helper: whenever `execute_select` succeeds, its count is the reference
full-scan matched-cell count. -/
lemma executeSelect_count (db : Database) (t : Bytes) (cols : List Bytes)
    (cond : Option Condition) :
    ∀ (fuel pn c : Nat) (rs : List Record),
      executeSelect db (.select t cols cond) fuel pn = .ok (c, rs) →
      specScanMatchCount db t cond fuel pn = .ok c := by
  intro fuel
  induction fuel with
  | zero =>
    intro pn c rs h
    simp only [executeSelect] at h
    cases h
  | succ f ih =>
    intro pn c rs h
    simp only [executeSelect] at h
    simp only [specScanMatchCount]
    cases hp : readPage db pn with
    | error e => simp [hp, bind, Except.bind] at h
    | ok page =>
      cases hs : getSchema db t with
      | error e => simp [hp, hs, bind, Except.bind] at h
      | ok sch =>
        simp only [hp, hs, bind, Except.bind] at h ⊢
        cases hsql : sch.sql with
        | createTable tn columns =>
          rw [hsql] at h
          cases page with
          | leafTable cells =>
            cases hf : scanFilter columns cond cells with
            | error e => simp [hf] at h
            | ok passing =>
              cases hpr : projectRows columns cols passing with
              | error e => simp [hf, hpr] at h
              | ok rs0 =>
                simp [hf, hpr] at h
                simp [hf]
                omega
          | interiorTable rmptr cells =>
            cases h1 : scanChildren (fun p => executeSelect db (Statement.select t cols cond) f p)
                cells with
            | error e => simp [h1] at h
            | ok r1 =>
              cases h2 : executeSelect db (Statement.select t cols cond) f rmptr with
              | error e => simp [h1, h2] at h
              | ok r2 =>
                simp [h1, h2] at h
                have hc1 := scanChildren_count
                  (fun p => executeSelect db (Statement.select t cols cond) f p)
                  (fun p => specScanMatchCount db t cond f p)
                  (fun pn c rs hh => ih pn c rs hh) cells r1 h1
                have hc2 := ih rmptr r2.1 r2.2 h2
                simp [hc1, hc2]
                omega
          | interiorIndex rmptr cells => simp at h
          | leafIndex cells => simp at h
        | select a b c' =>
          rw [hsql] at h
          simp at h ⊢
          omega
        | createIndex a b c' d =>
          rw [hsql] at h
          simp at h ⊢
          omega

/-- C3 (amended): what the executed `count(*)` prints.  Full-scan plan (no
condition, or a condition with no covering index): the printed count is the
number of leaf-table cells that pass the per-row filter, `specScanMatchCount`.
Index-assisted plan: the printed count is the length of the rowid list the
index probe collected — not the number of rows the rowid descent fetches. -/
theorem c3_count_follows_plan :
    (∀ (db : Database) (t : Bytes) (cols : List Bytes) (cond : Option Condition) (f n : Nat),
      executeStatement db (.select t cols cond) f = .ok (.countOut n) →
      (∀ col v, cond = some (.equals col v) → getIndexRootpage db t col = none) →
      ∃ rp, getTableRootpage db t = .ok rp ∧ specScanMatchCount db t cond f rp = .ok n) ∧
    (∀ (db : Database) (t : Bytes) (cols : List Bytes) (col v : Bytes) (f n idxRoot : Nat),
      getIndexRootpage db t col = some idxRoot →
      executeStatement db (.select t cols (some (.equals col v))) f = .ok (.countOut n) →
      ∃ ks tr, executeIndex db v f idxRoot = .ok (ks, tr) ∧ n = ks.length) := by
  constructor
  · intro db t cols cond f n h hnoidx
    cases cond with
    | none =>
      simp only [executeStatement] at h
      cases hrp : getTableRootpage db t with
      | error e => simp [hrp, bind, Except.bind] at h
      | ok rp =>
        cases hes : executeSelect db (.select t cols none) f rp with
        | error e => simp [hrp, hes, bind, Except.bind] at h
        | ok cr =>
          simp only [hrp, hes, bind, Except.bind] at h
          cases hhd : cols.head? with
          | none => rw [hhd] at h; simp at h
          | some c0 =>
            rw [hhd] at h
            by_cases hc0 : lowerBytes c0 = countStar
            · simp [hc0] at h
              exact ⟨rp, rfl, h ▸ executeSelect_count db t cols none f rp cr.1 cr.2 hes⟩
            · simp [hc0] at h
    | some cnd =>
      cases cnd with
      | equals col v =>
        have hidx : getIndexRootpage db t col = none := hnoidx col v rfl
        simp only [executeStatement, hidx] at h
        cases hrp : getTableRootpage db t with
        | error e => simp [hrp, bind, Except.bind] at h
        | ok rp =>
          cases hes : executeSelect db (.select t cols (some (.equals col v))) f rp with
          | error e => simp [hrp, hes, bind, Except.bind] at h
          | ok cr =>
            simp only [hrp, hes, bind, Except.bind] at h
            cases hhd : cols.head? with
            | none => rw [hhd] at h; simp at h
            | some c0 =>
              rw [hhd] at h
              by_cases hc0 : lowerBytes c0 = countStar
              · simp [hc0] at h
                exact ⟨rp, rfl,
                  h ▸ executeSelect_count db t cols (some (.equals col v)) f rp cr.1 cr.2 hes⟩
              · simp [hc0] at h
  · intro db t cols col v f n idxRoot hidx h
    simp only [executeStatement, hidx] at h
    cases hki : executeIndex db v f idxRoot with
    | error e => simp [hki, bind, Except.bind] at h
    | ok kt =>
      cases hrp : getTableRootpage db t with
      | error e => simp [hki, hrp, bind, Except.bind] at h
      | ok rp =>
        cases hsel : executeSelectWithIndex db (.select t cols (some (.equals col v))) f rp kt.1 with
        | error e => simp [hki, hrp, hsel, bind, Except.bind] at h
        | ok r =>
          simp only [hki, hrp, hsel, bind, Except.bind] at h
          cases hhd : cols.head? with
          | none => rw [hhd] at h; simp at h
          | some c0 =>
            rw [hhd] at h
            by_cases hc0 : lowerBytes c0 = countStar
            · simp [hc0] at h
              exact ⟨kt.1, kt.2, rfl, h.symm⟩
            · simp [hc0] at h

/-- C3 (witness): `SELECT count(*) FROM t` on `dbSep` prints 3, the number of
cells passing the (empty) filter; `SELECT count(*) FROM t WHERE c = 'v'`
prints 1, the length of the probe's rowid list. -/
theorem c3_count_follows_plan_witness :
    (∃ rp, getTableRootpage dbSep bT = .ok rp ∧
      specScanMatchCount dbSep bT none 10 rp = .ok 3) ∧
    (∃ ks tr, executeIndex dbSep bV 10 5 = .ok (ks, tr) ∧ 1 = ks.length) :=
  ⟨c3_count_follows_plan.1 dbSep bT [countStar] none 10 3 rfl (fun col v hcv => by cases hcv),
   c3_count_follows_plan.2 dbSep bT [countStar] bC bV 10 1 5 rfl rfl⟩
